import Mathlib

/-!
Verification of the grout man-page renderer (src/cli/man_commands.c and
src/cli/man_main.c) against its natural-language specification.

The grammar tree of the external command-parsing library is embedded as the
inductive type ECNode; every rendering function of the C source is
transcribed as a pure Lean function that returns the list of text fragments
the C code writes with printf, in emission order.  Fallible allocation
(the realloc growing the argument-entry array in collect_arguments) is
modelled by a numeric allocation budget: each successful growth consumes one
unit and a growth attempted with budget 0 fails with the ENOMEM signal.
-/

/-- Sentinel id string meaning that a node carries no id.  Modelled from the
spec: the constant EC_NO_ID belongs to the external ecoli library (only its
role as a distinguished sentinel matters; no proof depends on its spelling). -/
def EC_NO_ID : String := "no-id"

/-- Product version string, static configuration supplied by the caller
(gr_version.h is external configuration; the value is immaterial here). -/
def GROUT_VERSION : String := "0.1"

/-- Exit status for success, from stdlib.h. -/
def EXIT_SUCCESS : Nat := 0

/-- Exit status for failure, from stdlib.h. -/
def EXIT_FAILURE : Nat := 1

/-- Node type tags, transcribed from enum ec_node_type_enum in src/cli/man.h. -/
inductive Ec_node_type_enum where
  | NODE_TYPE_STR
  | NODE_TYPE_UINT
  | NODE_TYPE_INT
  | NODE_TYPE_DYN
  | NODE_TYPE_RE
  | NODE_TYPE_OR
  | NODE_TYPE_SEQ
  | NODE_TYPE_CMD
  | NODE_TYPE_OPTION
  | NODE_TYPE_MANY
  | NODE_TYPE_SUBSET
  | NODE_TYPE_UNKNOWN
deriving DecidableEq, Repr

open Ec_node_type_enum

/-- Read-only view of one grammar node, the data the C code reads through the
external library accessors: the type-name string (ec_node_type(node)->name),
the optional id (ec_node_id, none standing for NULL), the optional help
attribute (ec_dict_get(ec_node_attrs(node), HELP_ATTR)), the optional
computed description (ec_node_desc) and the ordered children list
(ec_node_get_children_count / ec_node_get_child). -/
inductive ECNode where
  | mk (typeName : String) (id : Option String) (help : Option String)
       (desc : Option String) (children : List ECNode) : ECNode
deriving Repr

/-- Accessor for the type-name string of a node. -/
def ECNode.typeName : ECNode → String
  | .mk tn _ _ _ _ => tn

/-- Accessor for the optional id of a node (none models a NULL ec_node_id). -/
def ECNode.id : ECNode → Option String
  | .mk _ i _ _ _ => i

/-- Accessor for the optional help attribute of a node. -/
def ECNode.help : ECNode → Option String
  | .mk _ _ h _ _ => h

/-- Accessor for the optional computed description of a node. -/
def ECNode.desc : ECNode → Option String
  | .mk _ _ _ d _ => d

/-- Accessor for the ordered children of a node. -/
def ECNode.children : ECNode → List ECNode
  | .mk _ _ _ _ cs => cs

/-- Transcription of get_node_type (src/cli/man_main.c, lines 30-57): the
closed node-type tag is derived solely from the type-name string, any
unrecognized name mapping to NODE_TYPE_UNKNOWN. -/
def get_node_type (node : ECNode) : Ec_node_type_enum :=
  let type := node.typeName
  if type = "str" then NODE_TYPE_STR
  else if type = "uint" then NODE_TYPE_UINT
  else if type = "int" then NODE_TYPE_INT
  else if type = "dyn" then NODE_TYPE_DYN
  else if type = "re" then NODE_TYPE_RE
  else if type = "or" then NODE_TYPE_OR
  else if type = "seq" then NODE_TYPE_SEQ
  else if type = "cmd" then NODE_TYPE_CMD
  else if type = "option" then NODE_TYPE_OPTION
  else if type = "many" then NODE_TYPE_MANY
  else if type = "subset" then NODE_TYPE_SUBSET
  else NODE_TYPE_UNKNOWN

/-- Concatenation of emitted text fragments into the byte stream actually
written: the output of a sequence of printf calls is the left-to-right
concatenation of their fragments. -/
def emit (frags : List String) : String :=
  frags.foldr (fun a r => a ++ r) ""

mutual

/-- Transcription of print_node_synopsis (src/cli/man_commands.c, lines
104-179): the usage-line synopsis renderer, dispatching on the node type and
returning the printf fragments in emission order. -/
def print_node_synopsis : ECNode → Nat → List String
  | node@(ECNode.mk _ id? _ desc? cs), depth =>
    match get_node_type node with
    | NODE_TYPE_STR =>
        match desc? with
        | some d => [" " ++ d]
        | none => []
    | NODE_TYPE_UINT | NODE_TYPE_INT =>
        [" _" ++ (match id? with
                  | some s => if s = EC_NO_ID then "NUM" else s
                  | none => "NUM") ++ "_"]
    | NODE_TYPE_DYN | NODE_TYPE_RE =>
        [" _" ++ (match id? with
                  | some s => if s = EC_NO_ID then "ARG" else s
                  | none => "ARG") ++ "_"]
    | NODE_TYPE_OR =>
        if 0 < cs.length then
          [" ("] ++ syn_or_children cs (depth + 1) 0 ++ [" )"]
        else []
    | NODE_TYPE_SEQ | NODE_TYPE_CMD =>
        syn_children cs (depth + 1)
    | NODE_TYPE_OPTION | NODE_TYPE_MANY =>
        if 0 < cs.length then
          [" ["] ++ syn_children cs (depth + 1) ++ [" ]"]
        else []
    | NODE_TYPE_SUBSET =>
        syn_subset_children cs (depth + 1)
    | NODE_TYPE_UNKNOWN => []

/-- Child loop of the Sequence / Command / Optional / Repeated cases of
print_node_synopsis: each child synopsis in order, no delimiters. -/
def syn_children : List ECNode → Nat → List String
  | [], _ => []
  | c :: rest, depth => print_node_synopsis c depth ++ syn_children rest depth

/-- Child loop of the Alternation case of print_node_synopsis, carrying the
loop index i: a " |" separator is printed before every child but the first. -/
def syn_or_children : List ECNode → Nat → Nat → List String
  | [], _, _ => []
  | c :: rest, depth, i =>
      (if 0 < i then [" |"] else []) ++ print_node_synopsis c depth
        ++ syn_or_children rest depth (i + 1)

/-- Child loop of the UnorderedSubset case of print_node_synopsis: every
child is individually bracketed. -/
def syn_subset_children : List ECNode → Nat → List String
  | [], _ => []
  | c :: rest, depth =>
      ([" ["] ++ print_node_synopsis c depth ++ [" ]"])
        ++ syn_subset_children rest depth

end

/-- One collected argument entry (struct arg_entry, src/cli/man_commands.c,
lines 17-20): the id string and the owning node. -/
structure ArgEntry where
  id : String
  node : ECNode
deriving Repr

/-- Transcription of find_arg (src/cli/man_commands.c, lines 22-28): whether
an entry with the given id was already collected. -/
def find_arg (args : List ArgEntry) (id : String) : Bool :=
  args.any (fun a => a.id = id)

/-- The type-name strings that qualify a node as a collectible argument
(static array argument_types in collect_arguments). -/
def argument_types : List String := ["uint", "int", "dyn", "re"]

/-- Transcription of is_valid_type (src/cli/man_commands.c, lines 61-67). -/
def is_valid_type (type : String) (types : List String) : Bool :=
  types.any (fun t => type = t)

mutual

/-- Transcription of collect_arguments (src/cli/man_commands.c, lines
69-102).  The node contributes an entry when it has a real id, a qualifying
type name and no entry with the same id exists yet; growing the entry array
consumes one unit of the allocation budget and fails (ENOMEM) when the
budget is exhausted.  Recursion always continues into the children. -/
def collect_arguments (budget : Nat) (node : ECNode) (args : List ArgEntry) :
    Except Unit (Nat × List ArgEntry) :=
  match node with
  | ECNode.mk tn id? _ _ cs =>
    match id? with
    | none => collect_children budget cs args
    | some id =>
      if id = EC_NO_ID then collect_children budget cs args
      else if ¬ is_valid_type tn argument_types then collect_children budget cs args
      else if find_arg args id then collect_children budget cs args
      else
        match budget with
        | 0 => Except.error ()
        | b + 1 => collect_children b cs (args ++ [⟨id, node⟩])

/-- Child loop at the end of collect_arguments: the children are visited in
order with the accumulated entry list threaded through, and a failure in any
child aborts the whole collection. -/
def collect_children (budget : Nat) (cs : List ECNode) (args : List ArgEntry) :
    Except Unit (Nat × List ArgEntry) :=
  match cs with
  | [] => Except.ok (budget, args)
  | c :: rest =>
    match collect_arguments budget c args with
    | Except.error e => Except.error e
    | Except.ok (b, args2) => collect_children b rest args2

end

mutual

/-- Pre-order listing of a subtree: the node itself, then the children
subtrees in order.  This is the traversal order of collect_arguments and is
used to state the specification of the Argument Collector. -/
def preorder : ECNode → List ECNode
  | node@(ECNode.mk _ _ _ _ cs) => node :: preorder_list cs

/-- Pre-order listing of a forest, in order. -/
def preorder_list : List ECNode → List ECNode
  | [] => []
  | c :: rest => preorder c ++ preorder_list rest

end

/-- Specification-side qualification step, following the wording of the spec
(section 4.2): a node adds an entry exactly when it has a real id, its type
is one of UnsignedInt, Int, DynamicValue, Regex, and no entry with the same
id has already been collected; otherwise the accumulated list is unchanged. -/
def spec_step (acc : List ArgEntry) (n : ECNode) : List ArgEntry :=
  match n.id with
  | none => acc
  | some s =>
    if s ≠ EC_NO_ID
        ∧ (get_node_type n = NODE_TYPE_UINT ∨ get_node_type n = NODE_TYPE_INT
           ∨ get_node_type n = NODE_TYPE_DYN ∨ get_node_type n = NODE_TYPE_RE)
        ∧ find_arg acc s = false
    then acc ++ [⟨s, n⟩] else acc

/-- Specification-side collector: first-occurrence fold of the qualification
step over the pre-order traversal of the subtree, starting from the empty
entry list. -/
def spec_collect (node : ECNode) : List ArgEntry :=
  (preorder node).foldl spec_step []

/-- Transcription of print_argument_help (src/cli/man_commands.c, lines
30-59): the id as a heading, then the explicit help text or a type-derived
default sentence.  Callers only pass collected nodes, whose id is real. -/
def print_argument_help (node : ECNode) : List String :=
  let id := match node.id with
            | some s => s
            | none => ""
  ["#### _" ++ id ++ "_\n\n"]
  ++ match node.help with
     | some h => [h ++ "\n\n"]
     | none =>
       match get_node_type node with
       | NODE_TYPE_UINT => ["Unsigned integer.\n\n"]
       | NODE_TYPE_INT => ["Integer.\n\n"]
       | NODE_TYPE_STR => ["String.\n\n"]
       | NODE_TYPE_DYN => ["Dynamic value.\n\n"]
       | _ => []

/-- Help lookup loop of get_command_help (src/cli/man_commands.c, lines
181-194): the help attribute of the first child that carries one. -/
def get_command_help_list : List ECNode → Option String
  | [] => none
  | c :: rest =>
    match c.help with
    | some h => some h
    | none => get_command_help_list rest

/-- Transcription of get_command_help: first available help among the
children of the alternation node. -/
def get_command_help (or_node : ECNode) : Option String :=
  get_command_help_list or_node.children

/-- Cross-reference flags computed by the classifier loop of
print_command_details (src/cli/man_commands.c, lines 256-271). -/
structure XrefFlags where
  has_iface : Bool
  has_vrf : Bool
  has_nexthop : Bool
  has_address : Bool
deriving DecidableEq, Repr

/-- One iteration of the classifier loop: the else-if chain over one
collected id. -/
def classify_step (f : XrefFlags) (arg_id : String) : XrefFlags :=
  if arg_id = "IFACE" ∨ arg_id = "NAME" then { f with has_iface := true }
  else if arg_id = "VRF" then { f with has_vrf := true }
  else if arg_id = "NH" ∨ arg_id = "NH_ID" ∨ arg_id = "SEGLIST" then
    { f with has_nexthop := true }
  else if arg_id = "ADDR" ∨ arg_id = "IP" ∨ arg_id = "DEST" then
    { f with has_address := true }
  else f

/-- The classifier loop over all collected entries, all flags starting 0. -/
def classify_args (args : List ArgEntry) : XrefFlags :=
  args.foldl (fun f a => classify_step f a.id) ⟨false, false, false, false⟩

/-- Transcription of the SEE ALSO emission of print_command_details
(src/cli/man_commands.c, lines 278-290): the unconditional grcli reference,
then one sibling reference per set flag unless the current command name
equals that sibling topic. -/
def see_also_frags (ctx_name : String) (f : XrefFlags) : List String :=
  ["# SEE ALSO\n\n", "**grcli**(1)"]
  ++ (if f.has_iface = true ∧ ctx_name ≠ "interface" then [", **grcli-interface**(1)"] else [])
  ++ (if f.has_address = true ∧ ctx_name ≠ "address" then [", **grcli-address**(1)"] else [])
  ++ (if f.has_nexthop = true ∧ ctx_name ≠ "nexthop" then [", **grcli-nexthop**(1)"] else [])
  ++ (if f.has_vrf = true ∧ ctx_name ≠ "route" then [", **grcli-route**(1)"] else [])
  ++ ["\n"]

/-- One SYNOPSIS line of print_command_details (src/cli/man_commands.c,
lines 209-236): the bold context name, the child synopsis, then the variant
help indented beneath; for a Sequence variant with at least two children the
help is looked up on its first child, otherwise on the variant itself. -/
def synopsis_variant (ctx_name : String) (child_node : ECNode) : List String :=
  let child_help : Option String :=
    if get_node_type child_node = NODE_TYPE_SEQ then
      if 2 ≤ child_node.children.length then
        match child_node.children.head? with
        | some str_node => str_node.help
        | none => none
      else none
    else child_node.help
  ["**" ++ ctx_name ++ "** "] ++ print_node_synopsis child_node 0 ++ ["\n"]
    ++ (match child_help with
        | some h => ["    " ++ h ++ "\n"]
        | none => [])
    ++ ["\n"]

/-- Result of print_command_details: the C return value, the stdout and
stderr fragments, the remaining allocation budget, and whether the entry
array was released (the free calls at lines 251 and 276 of
src/cli/man_commands.c) before returning. -/
structure CmdDetailsRes where
  ret : Int
  out : List String
  err : List String
  budget : Nat
  freed : Bool
deriving Repr

/-- Transcription of print_command_details (src/cli/man_commands.c, lines
196-292): optional page header, SYNOPSIS section with one line per variant,
ARGUMENTS section from the collected entries, and SEE ALSO section driven by
the classifier flags.  When growing the entry collection fails, the error is
reported on stderr, the partial entries are discarded, the array is released
and the call returns -1 without printing any ARGUMENTS entry. -/
def print_command_details (budget : Nat) (ctx_name : String) (or_node : ECNode)
    (with_header : Bool) : CmdDetailsRes :=
  let ctx_help := get_command_help or_node
  let head_frags : List String :=
    if with_header then
      ["# " ++ ctx_name ++ "\n\n"]
        ++ (match ctx_help with
            | some h => [h ++ "\n\n"]
            | none => [])
    else []
  let syn_frags : List String :=
    ["# SYNOPSIS\n\n"] ++ (or_node.children.map (synopsis_variant ctx_name)).flatten
  let arg_header : List String := ["# ARGUMENTS\n\n"]
  match collect_children budget or_node.children [] with
  | Except.error _ =>
      { ret := -1, out := head_frags ++ syn_frags ++ arg_header,
        err := ["Error: memory allocation failed\n"], budget := 0, freed := true }
  | Except.ok (b2, args) =>
      let flags := classify_args args
      let arg_frags := (args.map (fun a => print_argument_help a.node)).flatten
      { ret := 0,
        out := head_frags ++ syn_frags ++ arg_header ++ arg_frags
                 ++ see_also_frags ctx_name flags,
        err := [], budget := b2, freed := true }

/-- Transcription of print_man_page_header (src/cli/man_commands.c, lines
320-327): title line truncated by the 128-byte snprintf buffer, underline
rule of the same length, and the NAME section. -/
def print_man_page_header (cmd_name : String) (help_text : Option String) :
    List String :=
  let title :=
    String.mk (("GRCLI-" ++ cmd_name ++ " 1 \"grout " ++ GROUT_VERSION ++ "\"").data.take 127)
  [title ++ "\n",
   String.mk (List.replicate title.length '=') ++ "\n\n",
   "# NAME\n\n",
   "**grcli-" ++ cmd_name ++ "** -- "
     ++ (match help_text with
         | some h => h
         | none => "") ++ "\n\n"]

/-- Transcription of print_standalone_command (src/cli/man_commands.c, lines
294-318): optional header, then a SYNOPSIS line built from the node id with
the part before the first space in bold and the remainder printed verbatim
after it, then the fixed SEE ALSO section.  Callers pass nodes with a real
id, so the NULL-id case never arises and is modelled as the empty string. -/
def print_standalone_command (name : String) (cmd_node : ECNode)
    (with_header : Bool) : List String :=
  let help := cmd_node.help
  (if with_header then
     ["# " ++ name ++ "\n\n"]
       ++ (match help with
           | some h => [h ++ "\n\n"]
           | none => [])
   else [])
  ++ ["# SYNOPSIS\n\n"]
  ++ (let full_cmd := match cmd_node.id with
                      | some s => s
                      | none => ""
      let before := String.mk (full_cmd.data.takeWhile (fun c => c ≠ ' '))
      if full_cmd.data.any (fun c => c = ' ') then
        ["**" ++ before ++ "**"
          ++ String.mk (full_cmd.data.dropWhile (fun c => c ≠ ' ')) ++ "\n\n"]
      else
        ["**" ++ full_cmd ++ "**\n\n"])
  ++ ["# SEE ALSO\n\n", "**grcli**(1)\n"]

/-- Result of processing one top-level child in print_man_page: the C return
value, the found flag, the stdout and stderr fragments, and the remaining
allocation budget. -/
structure PRes where
  ret : Int
  found : Bool
  out : List String
  err : List String
  budget : Nat
deriving Repr

/-- Matching condition of the sequence shape, the early-return chain of
process_seq_node (src/cli/man_commands.c, lines 333-344): at least two
children, and the second child carries a real id equal to the requested
command name. -/
def seq_node_matches (node : ECNode) (requested_cmd : String) : Bool :=
  match node.children with
  | _ :: c1 :: _ =>
    match c1.id with
    | none => false
    | some name =>
      if name = EC_NO_ID then false
      else name = requested_cmd
  | _ => false

/-- Transcription of process_seq_node (src/cli/man_commands.c, lines
329-353): on a match, the page header uses the help of child 0 and the
alternation subtree documented is child 1. -/
def process_seq_node (budget : Nat) (node : ECNode) (requested_cmd : String) :
    PRes :=
  match node.children with
  | c0 :: c1 :: _ =>
    (match c1.id with
     | none => ⟨0, false, [], [], budget⟩
     | some name =>
       if name = EC_NO_ID then ⟨0, false, [], [], budget⟩
       else if name = requested_cmd then
         let header := print_man_page_header requested_cmd c0.help
         let d := print_command_details budget name c1 false
         if d.ret < 0 then ⟨-1, false, header ++ d.out, d.err, d.budget⟩
         else ⟨0, true, header ++ d.out, d.err, d.budget⟩
       else ⟨0, false, [], [], budget⟩)
  | _ => ⟨0, false, [], [], budget⟩

/-- Truncation of an id at (but not including) its first space character:
the strchr plus in-place cut of process_cmd_node.  Written on the underlying
character list of the string. -/
def truncate_at_space (s : String) : String :=
  String.mk (s.data.takeWhile (fun c => c ≠ ' '))

/-- Remainder of an id from its first space character onward: what the %s
conversion starting at the strchr result prints.  Empty when the string has
no space. -/
def rest_from_space (s : String) : String :=
  String.mk (s.data.dropWhile (fun c => c ≠ ' '))

/-- Matching condition of the command shape, from process_cmd_node
(src/cli/man_commands.c, lines 355-373): a real id whose part before the
first space equals the requested command name. -/
def cmd_node_matches (node : ECNode) (requested_cmd : String) : Bool :=
  match node.id with
  | none => false
  | some full_id =>
    if full_id = EC_NO_ID then false
    else truncate_at_space full_id = requested_cmd

/-- Transcription of process_cmd_node (src/cli/man_commands.c, lines
355-383).  The strdup of the id is modelled as the pure string copy it is;
its failure path is not modelled. -/
def process_cmd_node (budget : Nat) (node : ECNode) (requested_cmd : String) :
    PRes :=
  match node.id with
  | none => ⟨0, false, [], [], budget⟩
  | some full_id =>
    if full_id = EC_NO_ID then ⟨0, false, [], [], budget⟩
    else
      let name_copy := truncate_at_space full_id
      if name_copy = requested_cmd then
        ⟨0, true,
         print_man_page_header requested_cmd node.help
           ++ print_standalone_command name_copy node false,
         [], budget⟩
      else ⟨0, false, [], [], budget⟩

/-- Combined matching condition over the dispatch of print_man_page: only
Sequence and Command shaped top-level children can match, with their
respective conditions; every other node type is skipped. -/
def node_matches (node : ECNode) (requested_cmd : String) : Bool :=
  match get_node_type node with
  | NODE_TYPE_SEQ => seq_node_matches node requested_cmd
  | NODE_TYPE_CMD => cmd_node_matches node requested_cmd
  | _ => false

/-- Result of print_man_page: the process exit status and the emitted stdout
and stderr fragments. -/
structure ManPageRes where
  status : Nat
  out : List String
  err : List String
deriving Repr

/-- Loop of print_man_page (src/cli/man_commands.c, lines 389-413) over the
top-level children: Sequence and Command shaped children are processed in
order, an error aborts with EXIT_FAILURE, the first match stops the loop,
and falling off the end reports the unknown command on stderr with
EXIT_FAILURE. -/
def pmp_loop (budget : Nat) (requested_cmd : String) : List ECNode → ManPageRes
  | [] =>
      { status := EXIT_FAILURE, out := [],
        err := ["Error: unknown command '" ++ requested_cmd ++ "'\n"] }
  | node :: rest =>
    match get_node_type node with
    | NODE_TYPE_SEQ =>
      let r := process_seq_node budget node requested_cmd
      if r.ret < 0 then { status := EXIT_FAILURE, out := r.out, err := r.err }
      else if r.found then { status := EXIT_SUCCESS, out := r.out, err := r.err }
      else
        let rest_res := pmp_loop r.budget requested_cmd rest
        { status := rest_res.status, out := r.out ++ rest_res.out,
          err := r.err ++ rest_res.err }
    | NODE_TYPE_CMD =>
      let r := process_cmd_node budget node requested_cmd
      if r.ret < 0 then { status := EXIT_FAILURE, out := r.out, err := r.err }
      else if r.found then { status := EXIT_SUCCESS, out := r.out, err := r.err }
      else
        let rest_res := pmp_loop r.budget requested_cmd rest
        { status := rest_res.status, out := r.out ++ rest_res.out,
          err := r.err ++ rest_res.err }
    | _ => pmp_loop budget requested_cmd rest

/-- Transcription of print_man_page (src/cli/man_commands.c, lines 385-421):
resolve the requested command among the top-level children of the command
list and emit its page, or fail with the unknown-command diagnostic. -/
def print_man_page (budget : Nat) (cmdlist : ECNode) (requested_cmd : String) :
    ManPageRes :=
  pmp_loop budget requested_cmd cmdlist.children

/-- Rendering mode of the option-syntax printer, transcribed from enum
syntax_print_mode in src/cli/man_main.c. -/
inductive Print_mode where
  | SYNOPSIS_MODE
  | OPTION_MODE
deriving DecidableEq, Repr

open Print_mode

/-- Flag-name loop shared by the two branches of the option-syntax printer
(src/cli/man_main.c, lines 86-104 and 114-135): children without a
description are skipped; in synopsis mode only the first description is
printed, in option mode the descriptions are comma-separated. -/
def or_desc_frags (mode : Print_mode) : List ECNode → Bool → List String
  | [], _ => []
  | n :: rest, first =>
    match n.desc with
    | none => or_desc_frags mode rest first
    | some d =>
      if mode = SYNOPSIS_MODE ∧ first = false then or_desc_frags mode rest first
      else
        ((if mode = SYNOPSIS_MODE ∨ first = true then "" else ", ")
          ++ "**" ++ d ++ "**") :: or_desc_frags mode rest false

/-- Closing emission of the option-syntax printer (src/cli/man_main.c, lines
145-159): the upper-cased argument placeholder if one was found, then the
closing bracket (synopsis mode) or the terminating blank line followed by
the attached help text (option mode). -/
def option_closing (cmd_node : ECNode) (mode : Print_mode)
    (arg_name : Option String) : List String :=
  (match arg_name with
   | some a => [" _" ++ String.mk (a.data.map Char.toUpper) ++ "_"]
   | none => [])
  ++ (if mode = SYNOPSIS_MODE then ["]\n"]
      else
        ["\n\n"]
          ++ (match cmd_node.help with
              | some h => [h ++ "\n\n"]
              | none => []))

/-- Transcription of print_option_syntax (src/cli/man_main.c, lines 72-160),
which renders one top-level option node by inspecting only its first child.
When that child is a Sequence with fewer than two children the C function
returns right after printing the opening delimiter, so only that fragment is
emitted. -/
def print_option_syntax_frags (cmd_node : ECNode) (mode : Print_mode) :
    List String :=
  match cmd_node.children with
  | [] => []
  | child :: _ =>
    let opener := if mode = SYNOPSIS_MODE then "[" else "#### "
    match get_node_type child with
    | NODE_TYPE_OR =>
        [opener] ++ or_desc_frags mode child.children true
          ++ option_closing cmd_node mode none
    | NODE_TYPE_SEQ =>
        if child.children.length < 2 then [opener]
        else
          let mid := match child.children.head? with
            | some or_node =>
                if get_node_type or_node = NODE_TYPE_OR then
                  or_desc_frags mode or_node.children true
                else []
            | none => []
          let arg_name : Option String := match child.children.get? 1 with
            | some arg_node =>
                (match arg_node.id with
                 | some s => if s = EC_NO_ID then none else some s
                 | none => none)
            | none => none
          [opener] ++ mid ++ option_closing cmd_node mode arg_name
    | _ => [opener] ++ option_closing cmd_node mode none

/-! Helper lemmas about fragment emission and the synopsis child loops. -/

theorem emit_nil : emit [] = "" := rfl

theorem emit_cons (a : String) (l : List String) : emit (a :: l) = a ++ emit l := rfl

theorem emit_append (l1 l2 : List String) : emit (l1 ++ l2) = emit l1 ++ emit l2 := by
  induction l1 with
  | nil => simp [emit, String.empty_append]
  | cons a l ih => simp only [List.cons_append, emit_cons, ih, String.append_assoc]

theorem emit_flatten (L : List (List String)) : emit L.flatten = emit (L.map emit) := by
  induction L with
  | nil => rfl
  | cons x L ih => simp only [List.flatten_cons, emit_append, List.map_cons, emit_cons, ih]

theorem syn_children_eq_flatten (cs : List ECNode) (d : Nat) :
    syn_children cs d = (cs.map (fun c => print_node_synopsis c d)).flatten := by
  induction cs with
  | nil => simp [syn_children]
  | cons c rest ih => simp [syn_children, ih]

theorem syn_or_children_pos (cs : List ECNode) (d : Nat) :
    ∀ i, 0 < i →
      syn_or_children cs d i
        = (cs.map (fun c => [" |"] ++ print_node_synopsis c d)).flatten := by
  induction cs with
  | nil => intro i hi; simp [syn_or_children]
  | cons c rest ih =>
      intro i hi
      simp [syn_or_children, hi, ih (i + 1) (Nat.succ_pos i)]

theorem intercalate_sep_cons (x : List String) (L : List (List String)) :
    List.intercalate [" |"] (x :: L)
      = x ++ (L.map (fun y => [" |"] ++ y)).flatten := by
  induction L generalizing x with
  | nil => simp [List.intercalate]
  | cons y L ih =>
      have h : List.intercalate [" |"] (x :: y :: L)
          = x ++ [" |"] ++ List.intercalate [" |"] (y :: L) := by
        simp [List.intercalate, List.intersperse_cons_cons]
      simp only [h, ih y, List.map_cons, List.flatten_cons]
      simp [List.append_assoc]

theorem syn_or_eq_intercalate (c : ECNode) (rest : List ECNode) (d : Nat) :
    syn_or_children (c :: rest) d 0
      = List.intercalate [" |"] ((c :: rest).map (fun x => print_node_synopsis x d)) := by
  simp only [syn_or_children, Nat.lt_irrefl, if_neg, List.map_cons,
    intercalate_sep_cons, syn_or_children_pos rest d 1 Nat.one_pos, List.map_map]
  rfl

/-- C5: for every Alternation node rendered in usage-line mode, zero children
emit nothing at all, and one or more children emit " (", then each child
synopsis separated by " |", then " )". -/
theorem c5_alternation_synopsis (node : ECNode) (depth : Nat)
    (h : get_node_type node = NODE_TYPE_OR) :
    (node.children = [] → print_node_synopsis node depth = [])
    ∧ (node.children ≠ [] →
        print_node_synopsis node depth
          = [" ("]
              ++ List.intercalate [" |"]
                  (node.children.map (fun c => print_node_synopsis c (depth + 1)))
              ++ [" )"]) := by
  cases node with
  | mk tn i ho dd cs =>
    cases cs with
    | nil =>
        refine ⟨fun _ => ?_, fun hne => absurd rfl hne⟩
        simp [print_node_synopsis, h]
    | cons c rest =>
        refine ⟨fun hnil => absurd hnil (by simp [ECNode.children]), fun _ => ?_⟩
        simp only [print_node_synopsis, h, ECNode.children]
        rw [if_pos (by simp), syn_or_eq_intercalate]

/-- Witness for c5_alternation_synopsis at a concrete two-child alternation. -/
theorem c5_alternation_synopsis_witness :
    print_node_synopsis
        (ECNode.mk "or" none none none
          [ECNode.mk "str" none none (some "on") [],
           ECNode.mk "str" none none (some "off") []]) 0
      = [" ("]
          ++ List.intercalate [" |"]
              ((ECNode.mk "or" none none none
                  [ECNode.mk "str" none none (some "on") [],
                   ECNode.mk "str" none none (some "off") []]).children.map
                (fun c => print_node_synopsis c 1))
          ++ [" )"] :=
  (c5_alternation_synopsis
      (ECNode.mk "or" none none none
        [ECNode.mk "str" none none (some "on") [],
         ECNode.mk "str" none none (some "off") []]) 0 rfl).2
    (fun hh => List.noConfusion hh)

/-- C6: for every Sequence and Command node, the usage-line synopsis output
is exactly the in-order concatenation of the children synopsis outputs, with
no extra delimiters, at every depth. -/
theorem c6_sequence_concat (node : ECNode) (depth : Nat)
    (h : get_node_type node = NODE_TYPE_SEQ ∨ get_node_type node = NODE_TYPE_CMD) :
    emit (print_node_synopsis node depth)
      = emit (node.children.map (fun c => emit (print_node_synopsis c (depth + 1)))) := by
  cases node with
  | mk tn i ho dd cs =>
    rcases h with h | h <;>
      simp only [print_node_synopsis, h, ECNode.children, syn_children_eq_flatten,
        emit_flatten, List.map_map] <;> rfl

/-- Witness for c6_sequence_concat at a concrete sequence node. -/
theorem c6_sequence_concat_witness :
    emit (print_node_synopsis
        (ECNode.mk "seq" none none none
          [ECNode.mk "str" none none (some "up") [],
           ECNode.mk "uint" (some "N") none none []]) 0)
      = emit ((ECNode.mk "seq" none none none
          [ECNode.mk "str" none none (some "up") [],
           ECNode.mk "uint" (some "N") none none []]).children.map
            (fun c => emit (print_node_synopsis c 1)))
    ∧ emit (print_node_synopsis
        (ECNode.mk "seq" none none none
          [ECNode.mk "str" none none (some "up") [],
           ECNode.mk "uint" (some "N") none none []]) 0) = " up _N_" :=
  ⟨c6_sequence_concat
      (ECNode.mk "seq" none none none
        [ECNode.mk "str" none none (some "up") [],
         ECNode.mk "uint" (some "N") none none []]) 0 (Or.inl rfl),
   rfl⟩

/-- C2: a Command-shape top-level node with a real id matches a requested
name exactly when the requested name equals the id truncated at (but not
including) its first space; the node with id "ping IFACE" matches "ping" and
does not match "ping IFACE". -/
theorem c2_cmd_shape_match (budget : Nat) (node : ECNode) (req : String) :
    ((process_cmd_node budget node req).found = true ↔ cmd_node_matches node req = true)
    ∧ (∀ (tn : String) (ho dd : Option String) (cs : List ECNode) (full_id : String),
        full_id ≠ EC_NO_ID →
          (cmd_node_matches (ECNode.mk tn (some full_id) ho dd cs) req = true
            ↔ req = truncate_at_space full_id))
    ∧ cmd_node_matches (ECNode.mk "cmd" (some "ping IFACE") none none []) "ping" = true
    ∧ cmd_node_matches (ECNode.mk "cmd" (some "ping IFACE") none none []) "ping IFACE"
        = false := by
  refine ⟨?_, ?_, by decide, by decide⟩
  · cases node with
    | mk tn i ho dd cs =>
      cases i with
      | none => simp [process_cmd_node, cmd_node_matches, ECNode.id]
      | some full =>
        by_cases h1 : full = EC_NO_ID
        · simp [process_cmd_node, cmd_node_matches, ECNode.id, h1]
        · by_cases h2 : truncate_at_space full = req
          · simp [process_cmd_node, cmd_node_matches, ECNode.id, h1, h2]
          · simp [process_cmd_node, cmd_node_matches, ECNode.id, h1, h2]
  · intro tn ho dd cs full_id hno
    simp [cmd_node_matches, ECNode.id, hno, eq_comm]

/-- Witness for c2_cmd_shape_match at the node with id "ping IFACE". -/
theorem c2_cmd_shape_match_witness :
    cmd_node_matches (ECNode.mk "cmd" (some "ping IFACE") none none []) "ping" = true
      ↔ "ping" = truncate_at_space "ping IFACE" :=
  (c2_cmd_shape_match 0 (ECNode.mk "cmd" (some "ping IFACE") none none []) "ping").2.1
    "cmd" none none [] "ping IFACE" (by decide)

/-- C10: when the first child of an option node is a Sequence with fewer
than two children, the option-syntax printer emits only the opening
delimiter of its mode and returns early, leaving the brackets unbalanced and
the help text unprinted. -/
theorem c10_option_early_return (cmd_node child : ECNode) (rest : List ECNode)
    (hch : cmd_node.children = child :: rest)
    (hty : get_node_type child = NODE_TYPE_SEQ)
    (hlen : child.children.length < 2) :
    print_option_syntax_frags cmd_node Print_mode.SYNOPSIS_MODE = ["["]
    ∧ print_option_syntax_frags cmd_node Print_mode.OPTION_MODE = ["#### "] := by
  constructor <;> simp [print_option_syntax_frags, hch, hty, hlen]

/-- Witness for c10_option_early_return at a concrete option node whose
first child is a childless sequence. -/
theorem c10_option_early_return_witness :
    print_option_syntax_frags
        (ECNode.mk "option" none none none [ECNode.mk "seq" none none none []])
        Print_mode.SYNOPSIS_MODE = ["["]
    ∧ print_option_syntax_frags
        (ECNode.mk "option" none none none [ECNode.mk "seq" none none none []])
        Print_mode.OPTION_MODE = ["#### "] :=
  c10_option_early_return
    (ECNode.mk "option" none none none [ECNode.mk "seq" none none none []])
    (ECNode.mk "seq" none none none []) [] rfl rfl (by decide)

/-- C4 counterexample: for the command-shape node with id "ping IFACE" the
emitted SYNOPSIS line is "**ping** IFACE" followed by a blank line, not a
line containing only the command name: the remainder of the multi-word id is
printed after the bolded name. -/
theorem c4_synopsis_counterexample :
    print_standalone_command "ping" (ECNode.mk "cmd" (some "ping IFACE") none none []) false
      = ["# SYNOPSIS\n\n", "**ping** IFACE\n\n", "# SEE ALSO\n\n", "**grcli**(1)\n"]
    ∧ "**ping** IFACE\n\n" ≠ "**ping**\n\n" :=
  ⟨rfl, by decide⟩

/-- C4 amended: for a command-shape resolver result the SYNOPSIS section
holds a single usage line: the command name (the id up to its first space)
in bold, followed verbatim by the remainder of the id from the first space
onward; when the id has no space the line is only the bolded id. -/
theorem c4_standalone_synopsis (budget : Nat) (tn : String) (ho dd : Option String)
    (cs : List ECNode) (full_id req : String)
    (hno : full_id ≠ EC_NO_ID)
    (hm : truncate_at_space full_id = req) :
    (process_cmd_node budget (ECNode.mk tn (some full_id) ho dd cs) req).out
      = print_man_page_header req ho
        ++ ["# SYNOPSIS\n\n"]
        ++ (if full_id.data.any (fun c => c = ' ') then
              ["**" ++ truncate_at_space full_id ++ "**"
                 ++ rest_from_space full_id ++ "\n\n"]
            else ["**" ++ full_id ++ "**\n\n"])
        ++ ["# SEE ALSO\n\n", "**grcli**(1)\n"] := by
  subst hm
  simp [process_cmd_node, ECNode.id, ECNode.help, hno, print_standalone_command,
    truncate_at_space, rest_from_space]

/-- Witness for c4_standalone_synopsis at the node with id "ping IFACE"
resolved for the request "ping". -/
theorem c4_standalone_synopsis_witness :
    (process_cmd_node 0 (ECNode.mk "cmd" (some "ping IFACE") none none []) "ping").out
      = print_man_page_header "ping" none
        ++ ["# SYNOPSIS\n\n"]
        ++ (if "ping IFACE".data.any (fun c => c = ' ') then
              ["**" ++ truncate_at_space "ping IFACE" ++ "**"
                 ++ rest_from_space "ping IFACE" ++ "\n\n"]
            else ["**" ++ "ping IFACE" ++ "**\n\n"])
        ++ ["# SEE ALSO\n\n", "**grcli**(1)\n"] :=
  c4_standalone_synopsis 0 "cmd" none none [] "ping IFACE" "ping" (by decide) (by decide)

/-! Helper lemmas for the cross-reference classifier. -/

theorem classify_step_fields (f : XrefFlags) (x : String) :
    (classify_step f x).has_iface = (f.has_iface || (x = "IFACE" || x = "NAME"))
    ∧ (classify_step f x).has_vrf = (f.has_vrf || (x = "VRF"))
    ∧ (classify_step f x).has_nexthop
        = (f.has_nexthop || (x = "NH" || x = "NH_ID" || x = "SEGLIST"))
    ∧ (classify_step f x).has_address
        = (f.has_address || (x = "ADDR" || x = "IP" || x = "DEST")) := by
  unfold classify_step
  split_ifs with h1 h2 h3 h4 <;>
    first
      | (rcases h1 with h | h <;> subst h <;> simp)
      | (subst h2; simp)
      | (rcases h3 with h | h | h <;> subst h <;> simp)
      | (rcases h4 with h | h | h <;> subst h <;> simp)
      | (simp_all)

theorem classify_foldl (args : List ArgEntry) : ∀ f : XrefFlags,
    (args.foldl (fun f a => classify_step f a.id) f)
      = ⟨f.has_iface || args.any (fun a => a.id = "IFACE" || a.id = "NAME"),
         f.has_vrf || args.any (fun a => a.id = "VRF"),
         f.has_nexthop || args.any (fun a => a.id = "NH" || a.id = "NH_ID" || a.id = "SEGLIST"),
         f.has_address || args.any (fun a => a.id = "ADDR" || a.id = "IP" || a.id = "DEST")⟩ := by
  induction args with
  | nil => intro f; simp
  | cons a rest ih =>
      intro f
      obtain ⟨hi, hv, hn, ha⟩ := classify_step_fields f a.id
      simp only [List.foldl_cons, ih, List.any_cons, hi, hv, hn, ha, Bool.or_assoc]

theorem mem_ite_singleton {c : Prop} [Decidable c] {x y : String} :
    (x ∈ if c then [y] else ([] : List String)) ↔ (c ∧ x = y) := by
  split_ifs with h <;> simp [h]

/-- C9: the Cross-Reference Classifier flags are exactly the presence of the
corresponding id strings among the collected entries, and each true flag
yields its sibling page reference in SEE ALSO unless the current command
name equals the sibling topic (the vrf flag pointing at the route page). -/
theorem c9_xref_classifier (args : List ArgEntry) (ctx : String) :
    ((classify_args args).has_iface = true ↔ ∃ a ∈ args, a.id = "IFACE" ∨ a.id = "NAME")
    ∧ ((classify_args args).has_vrf = true ↔ ∃ a ∈ args, a.id = "VRF")
    ∧ ((classify_args args).has_nexthop = true
        ↔ ∃ a ∈ args, a.id = "NH" ∨ a.id = "NH_ID" ∨ a.id = "SEGLIST")
    ∧ ((classify_args args).has_address = true
        ↔ ∃ a ∈ args, a.id = "ADDR" ∨ a.id = "IP" ∨ a.id = "DEST")
    ∧ (∀ f : XrefFlags,
        (", **grcli-interface**(1)" ∈ see_also_frags ctx f
          ↔ f.has_iface = true ∧ ctx ≠ "interface")
        ∧ (", **grcli-address**(1)" ∈ see_also_frags ctx f
          ↔ f.has_address = true ∧ ctx ≠ "address")
        ∧ (", **grcli-nexthop**(1)" ∈ see_also_frags ctx f
          ↔ f.has_nexthop = true ∧ ctx ≠ "nexthop")
        ∧ (", **grcli-route**(1)" ∈ see_also_frags ctx f
          ↔ f.has_vrf = true ∧ ctx ≠ "route")) := by
  refine ⟨?_, ?_, ?_, ?_, ?_⟩
  · simp [classify_args, classify_foldl, List.any_eq_true]
  · simp [classify_args, classify_foldl, List.any_eq_true]
  · simp [classify_args, classify_foldl, List.any_eq_true, or_assoc]
  · simp [classify_args, classify_foldl, List.any_eq_true, or_assoc]
  · intro f
    refine ⟨?_, ?_, ?_, ?_⟩ <;> simp [see_also_frags, mem_ite_singleton]

/-! Helper lemmas for the resolver loop. -/

theorem process_seq_node_no_match (b : Nat) (node : ECNode) (req : String)
    (h : seq_node_matches node req = false) :
    process_seq_node b node req = ⟨0, false, [], [], b⟩ := by
  cases node with
  | mk tn i ho dd cs =>
    cases cs with
    | nil => rfl
    | cons c0 cs1 =>
      cases cs1 with
      | nil => rfl
      | cons c1 rest =>
        cases hid : c1.id with
        | none => simp [process_seq_node, ECNode.children, hid]
        | some name =>
          simp only [seq_node_matches, ECNode.children, hid] at h
          by_cases h1 : name = EC_NO_ID
          · simp [process_seq_node, ECNode.children, hid, h1]
          · rw [if_neg h1] at h
            simp only [decide_eq_false_iff_not] at h
            simp [process_seq_node, ECNode.children, hid, h1, h]

theorem process_cmd_node_no_match (b : Nat) (node : ECNode) (req : String)
    (h : cmd_node_matches node req = false) :
    process_cmd_node b node req = ⟨0, false, [], [], b⟩ := by
  cases hid : node.id with
  | none => simp [process_cmd_node, hid]
  | some full =>
    simp only [cmd_node_matches, hid] at h
    by_cases h1 : full = EC_NO_ID
    · simp [process_cmd_node, hid, h1]
    · rw [if_neg h1] at h
      simp only [decide_eq_false_iff_not] at h
      simp [process_cmd_node, hid, h1, h]

theorem pmp_skip (b : Nat) (req : String) (n : ECNode) (rest : List ECNode)
    (h : node_matches n req = false) :
    pmp_loop b req (n :: rest) = pmp_loop b req rest := by
  unfold node_matches at h
  cases hty : get_node_type n <;> rw [hty] at h <;> simp only [pmp_loop, hty]
  case NODE_TYPE_SEQ =>
    rw [process_seq_node_no_match b n req h]
    simp
  case NODE_TYPE_CMD =>
    rw [process_cmd_node_no_match b n req h]
    simp

theorem pmp_no_match (b : Nat) (req : String) :
    ∀ (l : List ECNode), (∀ n ∈ l, node_matches n req = false) →
      pmp_loop b req l
        = ⟨EXIT_FAILURE, [], ["Error: unknown command '" ++ req ++ "'\n"]⟩ := by
  intro l
  induction l with
  | nil => intro _; rfl
  | cons n rest ih =>
      intro hall
      rw [pmp_skip b req n rest (hall n (by simp))]
      exact ih (fun m hm => hall m (by simp [hm]))

/-- C7: when no top-level child matches the requested command name, page
generation fails: the diagnostic naming the offending command goes to the
error stream, the completion status is the non-zero EXIT_FAILURE, and no
page body at all is emitted on the output stream. -/
theorem c7_unknown_command (budget : Nat) (req : String) (cmdlist : ECNode)
    (h : ∀ n ∈ cmdlist.children, node_matches n req = false) :
    print_man_page budget cmdlist req
      = ⟨EXIT_FAILURE, [], ["Error: unknown command '" ++ req ++ "'\n"]⟩
    ∧ EXIT_FAILURE ≠ EXIT_SUCCESS :=
  ⟨pmp_no_match budget req cmdlist.children h, by decide⟩

/-- Witness for c7_unknown_command on a two-child forest in which nothing
matches the request "route". -/
theorem c7_unknown_command_witness :
    print_man_page 3
        (ECNode.mk "or" none none none
          [ECNode.mk "seq" none none none [],
           ECNode.mk "cmd" (some "ping IFACE") none none []]) "route"
      = ⟨EXIT_FAILURE, [], ["Error: unknown command 'route'\n"]⟩
    ∧ EXIT_FAILURE ≠ EXIT_SUCCESS :=
  c7_unknown_command 3 "route"
    (ECNode.mk "or" none none none
      [ECNode.mk "seq" none none none [],
       ECNode.mk "cmd" (some "ping IFACE") none none []])
    (by decide)

/-! Helper lemmas for the sequence-shape resolver. -/

theorem process_seq_found_or_err_iff (b : Nat) (node : ECNode) (req : String) :
    ((process_seq_node b node req).found = true
      ∨ (process_seq_node b node req).ret < 0)
    ↔ seq_node_matches node req = true := by
  cases node with
  | mk tn i ho dd cs =>
    cases cs with
    | nil => simp [process_seq_node, seq_node_matches, ECNode.children]
    | cons c0 cs1 =>
      cases cs1 with
      | nil => simp [process_seq_node, seq_node_matches, ECNode.children]
      | cons c1 rest =>
        cases hid : c1.id with
        | none => simp [process_seq_node, seq_node_matches, ECNode.children, hid]
        | some name =>
          by_cases h1 : name = EC_NO_ID
          · simp [process_seq_node, seq_node_matches, ECNode.children, hid, h1]
          · by_cases h2 : name = req
            · subst h2
              by_cases hd : (print_command_details b name c1 false).ret < 0 <;>
                simp [process_seq_node, seq_node_matches, ECNode.children, hid, h1, hd]
            · simp [process_seq_node, seq_node_matches, ECNode.children, hid, h1, h2]

theorem seq_node_matches_iff (node : ECNode) (req : String) :
    seq_node_matches node req = true
      ↔ 2 ≤ node.children.length
        ∧ (node.children.get? 1).bind ECNode.id = some req
        ∧ req ≠ EC_NO_ID := by
  cases node with
  | mk tn i ho dd cs =>
    cases cs with
    | nil => simp [seq_node_matches, ECNode.children]
    | cons c0 cs1 =>
      cases cs1 with
      | nil => simp [seq_node_matches, ECNode.children]
      | cons c1 rest =>
        cases hid : c1.id with
        | none => simp [seq_node_matches, ECNode.children, hid]
        | some name =>
          by_cases h1 : name = EC_NO_ID
          · subst h1
            simp [seq_node_matches, ECNode.children, hid]
            exact fun hr => hr.symm
          · by_cases h2 : name = req
            · subst h2
              simp [seq_node_matches, ECNode.children, hid, h1]
            · simp [seq_node_matches, ECNode.children, hid, h1, h2]

theorem process_seq_out_on_match (b : Nat) (node : ECNode) (req : String)
    (c0 c1 : ECNode) (rest : List ECNode)
    (hch : node.children = c0 :: c1 :: rest)
    (hm : seq_node_matches node req = true) :
    (process_seq_node b node req).out
      = print_man_page_header req c0.help
          ++ (print_command_details b req c1 false).out := by
  cases node with
  | mk tn i ho dd cs =>
    simp only [ECNode.children] at hch
    subst hch
    cases hid : c1.id with
    | none => simp [seq_node_matches, ECNode.children, hid] at hm
    | some name =>
      simp only [seq_node_matches, ECNode.children, hid] at hm
      by_cases h1 : name = EC_NO_ID
      · simp [h1] at hm
      · rw [if_neg h1] at hm
        simp only [decide_eq_true_eq] at hm
        subst hm
        by_cases hd : (print_command_details b name c1 false).ret < 0 <;>
          simp [process_seq_node, ECNode.children, hid, h1, hd]

theorem process_cmd_found_of_match (b : Nat) (node : ECNode) (req : String)
    (h : cmd_node_matches node req = true) :
    (process_cmd_node b node req).found = true
    ∧ ¬ (process_cmd_node b node req).ret < 0 := by
  cases hid : node.id with
  | none => simp [cmd_node_matches, hid] at h
  | some full =>
    simp only [cmd_node_matches, hid] at h
    by_cases h1 : full = EC_NO_ID
    · simp [h1] at h
    · rw [if_neg h1] at h
      simp only [decide_eq_true_eq] at h
      simp [process_cmd_node, hid, h1, h]

theorem pmp_match_head (b : Nat) (req : String) (m : ECNode) (tail : List ECNode)
    (h : node_matches m req = true) :
    pmp_loop b req (m :: tail) = pmp_loop b req [m] := by
  unfold node_matches at h
  cases hty : get_node_type m <;> rw [hty] at h
  case NODE_TYPE_SEQ =>
    have hfe := (process_seq_found_or_err_iff b m req).2 h
    by_cases hr : (process_seq_node b m req).ret < 0
    · simp only [pmp_loop, hty, if_pos hr]
    · have hf : (process_seq_node b m req).found = true := by
        rcases hfe with hf | hr2
        · exact hf
        · exact absurd hr2 hr
      simp only [pmp_loop, hty, if_neg hr, hf, if_pos]
  case NODE_TYPE_CMD =>
    obtain ⟨hf, hr⟩ := process_cmd_found_of_match b m req h
    simp only [pmp_loop, hty, if_neg hr, hf, if_pos]
  all_goals exact absurd h (by simp)

theorem pmp_first_match (b : Nat) (req : String) (m : ECNode) :
    ∀ (l1 l2 : List ECNode), (∀ n ∈ l1, node_matches n req = false) →
      node_matches m req = true →
        pmp_loop b req (l1 ++ m :: l2) = pmp_loop b req [m] := by
  intro l1
  induction l1 with
  | nil => intro l2 _ hm; exact pmp_match_head b req m l2 hm
  | cons n l1t ih =>
      intro l2 hall hm
      rw [List.cons_append, pmp_skip b req n (l1t ++ m :: l2) (hall n (by simp))]
      exact ih l2 (fun x hx => hall x (by simp [hx])) hm

/-- C1 counterexample: a top-level Sequence node whose child 0 is not a
Literal and whose child 1 is not an Alternation still matches the requested
name "route", because process_seq_node never checks the types of the two
children: it only compares the id of child 1. -/
theorem c1_seq_shape_counterexample :
    (process_seq_node 0
        (ECNode.mk "seq" none none none
          [ECNode.mk "uint" none none none [],
           ECNode.mk "seq" (some "route") none none []]) "route").found = true
    ∧ get_node_type (ECNode.mk "uint" none none none []) ≠ NODE_TYPE_STR
    ∧ get_node_type (ECNode.mk "seq" (some "route") none none []) ≠ NODE_TYPE_OR :=
  ⟨rfl, by decide, by decide⟩

/-- C1 amended: a Sequence-shape top-level child matches the requested name
exactly when it has at least two children and child 1 carries a real id
equal (case-sensitive, whole string) to the requested name; the types of
child 0 and child 1 are not examined.  On a match the child-1 subtree is the
one documented (with the page blurb taken from child 0), and the first
matching top-level child wins. -/
theorem c1_resolver_seq_shape (budget : Nat) (node : ECNode) (req : String) :
    (((process_seq_node budget node req).found = true
        ∨ (process_seq_node budget node req).ret < 0)
      ↔ seq_node_matches node req = true)
    ∧ (seq_node_matches node req = true
        ↔ 2 ≤ node.children.length
          ∧ (node.children.get? 1).bind ECNode.id = some req
          ∧ req ≠ EC_NO_ID)
    ∧ (∀ (c0 c1 : ECNode) (rest : List ECNode),
        node.children = c0 :: c1 :: rest →
        seq_node_matches node req = true →
          (process_seq_node budget node req).out
            = print_man_page_header req c0.help
                ++ (print_command_details budget req c1 false).out)
    ∧ (∀ (l1 l2 : List ECNode),
        (∀ n ∈ l1, node_matches n req = false) →
        node_matches node req = true →
          pmp_loop budget req (l1 ++ node :: l2) = pmp_loop budget req [node]) :=
  ⟨process_seq_found_or_err_iff budget node req,
   seq_node_matches_iff node req,
   fun c0 c1 rest hch hm => process_seq_out_on_match budget node req c0 c1 rest hch hm,
   fun l1 l2 hall hm => pmp_first_match budget req node l1 l2 hall hm⟩

/-- Witness for c1_resolver_seq_shape: the matching Sequence node is found
first among three top-level children, with the non-matching one before it
skipped and the one after it never examined. -/
theorem c1_resolver_seq_shape_witness :
    pmp_loop 4 "route"
        ([ECNode.mk "cmd" (some "ping IFACE") none none []]
          ++ (ECNode.mk "seq" none none none
               [ECNode.mk "str" none none none [],
                ECNode.mk "or" (some "route") none none []])
            :: [ECNode.mk "seq" none none none
                 [ECNode.mk "str" none none none [],
                  ECNode.mk "or" (some "route") none (some "dup") []]])
      = pmp_loop 4 "route"
          [ECNode.mk "seq" none none none
            [ECNode.mk "str" none none none [],
             ECNode.mk "or" (some "route") none none []]] :=
  (c1_resolver_seq_shape 4
      (ECNode.mk "seq" none none none
        [ECNode.mk "str" none none none [],
         ECNode.mk "or" (some "route") none none []]) "route").2.2.2
    [ECNode.mk "cmd" (some "ping IFACE") none none []]
    [ECNode.mk "seq" none none none
      [ECNode.mk "str" none none none [],
       ECNode.mk "or" (some "route") none (some "dup") []]]
    (by decide) (by decide)

/-! Helper lemmas for the argument collector. -/

set_option maxHeartbeats 1000000 in
theorem is_valid_type_iff (n : ECNode) :
    is_valid_type n.typeName argument_types = true
      ↔ (get_node_type n = NODE_TYPE_UINT ∨ get_node_type n = NODE_TYPE_INT
         ∨ get_node_type n = NODE_TYPE_DYN ∨ get_node_type n = NODE_TYPE_RE) := by
  have hlhs : is_valid_type n.typeName argument_types = true
      ↔ (n.typeName = "uint" ∨ n.typeName = "int" ∨ n.typeName = "dyn"
          ∨ n.typeName = "re") := by
    simp [is_valid_type, argument_types]
  rw [hlhs]
  simp only [get_node_type]
  generalize n.typeName = t
  split_ifs <;> simp_all

theorem find_arg_iff (args : List ArgEntry) (s : String) :
    find_arg args s = true ↔ s ∈ args.map ArgEntry.id := by
  simp [find_arg, List.any_eq_true, List.mem_map]

theorem collect_arguments_eq_spec :
    ∀ (node : ECNode) (b : Nat) (acc : List ArgEntry) (b2 : Nat) (args : List ArgEntry),
      collect_arguments b node acc = Except.ok (b2, args) →
        args = (preorder node).foldl spec_step acc :=
  preorder.induct
    (fun node => ∀ b acc b2 args,
      collect_arguments b node acc = Except.ok (b2, args) →
        args = (preorder node).foldl spec_step acc)
    (fun cs => ∀ b acc b2 args,
      collect_children b cs acc = Except.ok (b2, args) →
        args = (preorder_list cs).foldl spec_step acc)
    (by
      intro tn i ho dd cs ih b acc b2 args hok
      cases i with
      | none =>
          simp only [collect_arguments] at hok
          simp only [preorder, List.foldl_cons]
          rw [ih b acc b2 args hok]
          rfl
      | some id =>
          simp only [collect_arguments] at hok
          by_cases hno : id = EC_NO_ID
          · rw [if_pos hno] at hok
            simp only [preorder, List.foldl_cons]
            rw [ih b acc b2 args hok]
            congr 1
            simp [spec_step, ECNode.id, hno]
          · rw [if_neg hno] at hok
            by_cases hv : is_valid_type tn argument_types = true
            · rw [if_neg (not_not_intro hv)] at hok
              by_cases hf : find_arg acc id = true
              · rw [if_pos hf] at hok
                simp only [preorder, List.foldl_cons]
                rw [ih b acc b2 args hok]
                congr 1
                simp [spec_step, ECNode.id, hf]
              · rw [if_neg hf] at hok
                cases b with
                | zero => simp at hok
                | succ b1 =>
                    have hok2 : collect_children b1 cs
                        (acc ++ [⟨id, ECNode.mk tn (some id) ho dd cs⟩])
                        = Except.ok (b2, args) := hok
                    simp only [preorder, List.foldl_cons]
                    rw [ih b1 (acc ++ [⟨id, ECNode.mk tn (some id) ho dd cs⟩]) b2 args hok2]
                    congr 1
                    have htype := (is_valid_type_iff (ECNode.mk tn (some id) ho dd cs)).1 hv
                    simp only [spec_step, ECNode.id]
                    rw [if_pos ⟨hno, htype, by simpa using hf⟩]
            · rw [if_pos hv] at hok
              simp only [preorder, List.foldl_cons]
              rw [ih b acc b2 args hok]
              congr 1
              have htype : ¬ (get_node_type (ECNode.mk tn (some id) ho dd cs) = NODE_TYPE_UINT
                  ∨ get_node_type (ECNode.mk tn (some id) ho dd cs) = NODE_TYPE_INT
                  ∨ get_node_type (ECNode.mk tn (some id) ho dd cs) = NODE_TYPE_DYN
                  ∨ get_node_type (ECNode.mk tn (some id) ho dd cs) = NODE_TYPE_RE) :=
                fun hd => hv ((is_valid_type_iff (ECNode.mk tn (some id) ho dd cs)).2 hd)
              simp only [spec_step, ECNode.id]
              rw [if_neg (fun hcond => htype hcond.2.1)])
    (by
      intro b acc b2 args hok
      simp only [collect_children, Except.ok.injEq, Prod.mk.injEq] at hok
      obtain ⟨hb, ha⟩ := hok
      subst ha
      simp [preorder_list])
    (by
      intro c rest ih1 ih2 b acc b2 args hok
      simp only [collect_children] at hok
      cases hc : collect_arguments b c acc with
      | error e =>
          rw [hc] at hok
          exact absurd hok (by simp)
      | ok p =>
          obtain ⟨b1, a1⟩ := p
          simp only [hc] at hok
          have h1 := ih1 b acc b1 a1 hc
          have h2 := ih2 b1 a1 b2 args hok
          simp only [preorder_list, List.foldl_append]
          rw [h2, h1])

theorem spec_foldl_nodup : ∀ (l : List ECNode) (acc : List ArgEntry),
    (acc.map ArgEntry.id).Nodup → ((l.foldl spec_step acc).map ArgEntry.id).Nodup := by
  intro l
  induction l with
  | nil => intro acc h; simpa using h
  | cons n rest ih =>
      intro acc h
      rw [List.foldl_cons]
      apply ih
      cases hid : n.id with
      | none => simpa [spec_step, hid] using h
      | some s =>
          simp only [spec_step, hid]
          split_ifs with hc
          · obtain ⟨h1, h2, h3⟩ := hc
            simp only [List.map_append, List.map_cons, List.map_nil]
            rw [List.nodup_append]
            refine ⟨h, List.nodup_singleton s, ?_⟩
            intro x hx hx2
            have hxs : x = s := by simpa using hx2
            subst hxs
            have hnf : ¬ (find_arg acc x = true) := by simp [h3]
            rw [find_arg_iff] at hnf
            exact hnf hx
          · exact h

/-- C3: a successful argument collection over a subtree returns exactly the
first-occurrence pre-order fold of the specification qualification step
(real id, type among UnsignedInt, Int, DynamicValue, Regex, id not yet
collected; recursion always continuing into children), and the resulting
entry list never carries the same id twice. -/
theorem c3_collector_spec (node : ECNode) (budget b2 : Nat) (args : List ArgEntry)
    (h : collect_arguments budget node [] = Except.ok (b2, args)) :
    args = spec_collect node ∧ (args.map ArgEntry.id).Nodup := by
  have he := collect_arguments_eq_spec node budget [] b2 args h
  refine ⟨he, ?_⟩
  rw [he]
  exact spec_foldl_nodup (preorder node) [] (by simp)

/-- Witness for c3_collector_spec on a subtree with the id "X" duplicated in
two branches: one entry per id, in first-occurrence pre-order. -/
theorem c3_collector_spec_witness :
    collect_arguments 5
        (ECNode.mk "seq" none none none
          [ECNode.mk "uint" (some "X") none none [],
           ECNode.mk "or" none none none
             [ECNode.mk "uint" (some "X") none none [],
              ECNode.mk "int" (some "Y") none none []]]) []
      = Except.ok (3,
          [⟨"X", ECNode.mk "uint" (some "X") none none []⟩,
           ⟨"Y", ECNode.mk "int" (some "Y") none none []⟩])
    ∧ ([⟨"X", ECNode.mk "uint" (some "X") none none []⟩,
        ⟨"Y", ECNode.mk "int" (some "Y") none none []⟩]
         = spec_collect (ECNode.mk "seq" none none none
            [ECNode.mk "uint" (some "X") none none [],
             ECNode.mk "or" none none none
               [ECNode.mk "uint" (some "X") none none [],
                ECNode.mk "int" (some "Y") none none []]])
       ∧ (([⟨"X", ECNode.mk "uint" (some "X") none none []⟩,
            ⟨"Y", ECNode.mk "int" (some "Y") none none []⟩] : List ArgEntry).map
              ArgEntry.id).Nodup) :=
  ⟨rfl,
   c3_collector_spec
     (ECNode.mk "seq" none none none
       [ECNode.mk "uint" (some "X") none none [],
        ECNode.mk "or" none none none
          [ECNode.mk "uint" (some "X") none none [],
           ECNode.mk "int" (some "Y") none none []]]) 5 3
     [⟨"X", ECNode.mk "uint" (some "X") none none []⟩,
      ⟨"Y", ECNode.mk "int" (some "Y") none none []⟩] rfl⟩

/-- C8: the entry collection is released (freed) before print_command_details
returns on every path; when growing the collection fails the call reports
the allocation error on stderr, returns -1 with the output stopping right
after the ARGUMENTS header (no entry of the discarded partial collection is
printed), and the failure propagates through process_seq_node to the
print_man_page loop as an EXIT_FAILURE result. -/
theorem c8_alloc_failure (budget : Nat) (ctx : String) (or_node : ECNode) (wh : Bool) :
    ((print_command_details budget ctx or_node wh).freed = true)
    ∧ (collect_children budget or_node.children [] = Except.error () →
        (print_command_details budget ctx or_node wh).ret = -1
        ∧ (print_command_details budget ctx or_node wh).err
            = ["Error: memory allocation failed\n"]
        ∧ (print_command_details budget ctx or_node wh).out.getLast?
            = some "# ARGUMENTS\n\n")
    ∧ (∀ (node : ECNode) (req : String) (c0 : ECNode) (rest : List ECNode),
        node.children = c0 :: or_node :: rest →
        or_node.id = some req → req ≠ EC_NO_ID →
        (print_command_details budget req or_node false).ret < 0 →
          (process_seq_node budget node req).ret = -1
          ∧ (process_seq_node budget node req).err
              = (print_command_details budget req or_node false).err)
    ∧ (∀ (node : ECNode) (req : String) (tail : List ECNode),
        get_node_type node = NODE_TYPE_SEQ →
        (process_seq_node budget node req).ret < 0 →
          pmp_loop budget req (node :: tail)
            = ⟨EXIT_FAILURE, (process_seq_node budget node req).out,
               (process_seq_node budget node req).err⟩) := by
  refine ⟨?_, ?_, ?_, ?_⟩
  · cases hc : collect_children budget or_node.children [] with
    | error e => simp [print_command_details, hc]
    | ok p =>
        obtain ⟨b2, args⟩ := p
        simp [print_command_details, hc]
  · intro hc
    refine ⟨by simp [print_command_details, hc], by simp [print_command_details, hc], ?_⟩
    simp [print_command_details, hc]
    rw [← List.cons_append]
    exact List.getLast?_concat _
  · intro node req c0 rest hch hid hno hd
    cases node with
    | mk tn i ho dd cs =>
      simp only [ECNode.children] at hch
      subst hch
      simp [process_seq_node, ECNode.children, hid, hno, hd]
  · intro node req tail hty hr
    simp only [pmp_loop, hty, if_pos hr]

/-- Witness for c8_alloc_failure: with allocation budget 0 the collection
over a single qualifying argument node fails and the emitted page stops at
the ARGUMENTS header with the error reported and failure returned. -/
theorem c8_alloc_failure_witness :
    (print_command_details 0 "route"
        (ECNode.mk "or" none none none [ECNode.mk "uint" (some "X") none none []])
        false).ret = -1
    ∧ (print_command_details 0 "route"
        (ECNode.mk "or" none none none [ECNode.mk "uint" (some "X") none none []])
        false).err = ["Error: memory allocation failed\n"]
    ∧ (print_command_details 0 "route"
        (ECNode.mk "or" none none none [ECNode.mk "uint" (some "X") none none []])
        false).out.getLast? = some "# ARGUMENTS\n\n" :=
  (c8_alloc_failure 0 "route"
      (ECNode.mk "or" none none none [ECNode.mk "uint" (some "X") none none []])
      false).2.1 rfl
